import Mathlib

/-!
# local-clipboard: the file store and the hub loop of `main.go`

A shallow embedding of `FileStore.set`, `FileStore.get` and of one iteration of
the `select` loop of `Hub.run` (register, unregister, broadcast), followed by
the properties of the merge policy, of the file-reference rewrite and of the
fan-out.

Modelling choices.

* `*websocket.Conn` is an address, a natural number.
* `map[string]*FileData` is a function from identifiers to optional records.
  The map is never iterated, so lookup is all that can be observed of it.
  Every pointer handed to `FileStore.set` is a fresh allocation that its caller
  never writes afterwards (`main.go` lines 148 and 336), so no cell is shared
  by two keys and the in-place assignments `existing.Name = ...` are updates of
  the record stored under the key.
* `map[*websocket.Conn]string` is an association list with distinct keys; the
  order of its entries is the order in which `range` produces them. Theorems
  hold for every such list, hence for every iteration order.
* `int64` is `Int`: the sizes are only compared with zero and copied.
* The three channels become the constructors of `Event`; mutexes and log
  lines have no effect on the state and are left out.
* `conn.WriteJSON` is a parameter telling, for a connection and a message,
  whether the write returns an error; writes and closes are recorded as
  effects.
* What reaches the hub comes from `Hub.handleWebSocket`, the only sender on
  the three channels. Its read loop (lines 204-220) is embedded with the clock
  reading as a parameter and `fmt.Sprintf("%d", n)` as the decimal form of `n`.
  The address it registers (lines 197-198) is the host part of the peer
  address, an IP address for the TCP listener that `main` opens (lines 408 and
  423); `addressed` says that the addresses of a registry are non-empty.
-/

namespace LocalClipboard

/-- A connection handle, `*websocket.Conn`. -/
abbrev Conn := Nat

/-- The `FileData` struct. -/
structure FileData where
  ID : String
  Name : String
  Size : Int
  /-- The field `Type` of the source; the word is reserved here. -/
  Type_ : String
  Content : String
  deriving DecidableEq

/-- The `Message` struct; `File` is a nullable pointer. -/
structure Message where
  ID : String
  Text : String
  SenderIP : String
  File : Option FileData
  deriving DecidableEq

/-- The `broadcastMsg` struct. -/
structure broadcastMsg where
  msg : Message
  sender : Conn
  deriving DecidableEq

/-- The `FileStore` struct: the `files` map. -/
structure FileStore where
  files : String → Option FileData

/-- The empty store of `newFileStore`. -/
def newFileStore : FileStore :=
  { files := fun _ => none }

/-- The assignment `fs.files[id] = file`. -/
def FileStore.assign (fs : FileStore) (id : String) (file : FileData) : FileStore :=
  { files := fun k => if k = id then some file else fs.files k }

/-- The method `FileStore.set` (lines 60-78): the record is replaced when the
key is new or the incoming record has content; otherwise the existing record
keeps its content and takes the incoming name, size and type that are set. -/
def FileStore.set (fs : FileStore) (id : String) (file : FileData) : FileStore :=
  match fs.files id with
  | none => fs.assign id file
  | some existing =>
    if file.Content ≠ "" then fs.assign id file
    else
      let e1 := if file.Name ≠ "" then { existing with Name := file.Name } else existing
      let e2 := if file.Size > 0 then { e1 with Size := file.Size } else e1
      let e3 := if file.Type_ ≠ "" then { e2 with Type_ := file.Type_ } else e2
      fs.assign id e3

/-- The method `FileStore.get` (lines 80-85): `none` is the not-found flag. -/
def FileStore.get (fs : FileStore) (id : String) : Option FileData :=
  fs.files id

/-- A sequence of `set` calls, applied from left to right. -/
def FileStore.setAll (fs : FileStore) : List (String × FileData) → FileStore
  | [] => fs
  | (id, file) :: rest => (fs.set id file).setAll rest

/-- The `connInfo` struct. -/
structure connInfo where
  conn : Conn
  ip : String
  deriving DecidableEq

/-- The `clients` map of the hub. -/
abbrev Registry := AList (fun _ : Conn => String)

/-- The `Hub` struct: the registry and the file store. -/
structure Hub where
  clients : Registry
  fileStore : FileStore

/-- The hub of `newHub`. -/
def newHub (fileStore : FileStore) : Hub :=
  { clients := ∅, fileStore := fileStore }

/-- What one receive of the `select` in `Hub.run` can deliver. -/
inductive Event where
  | register (ci : connInfo)
  | unregister (conn : Conn)
  | broadcast (bm : broadcastMsg)
  deriving DecidableEq

/-- The calls the hub makes on connections. -/
inductive Effect where
  | writeJSON (conn : Conn) (message : Message) (err : Bool)
  | close (conn : Conn)
  deriving DecidableEq

/-- The map read `h.clients[conn]`: the zero value when the key is absent. -/
def Hub.clientIP (h : Hub) (conn : Conn) : String :=
  (h.clients.lookup conn).getD ""

/-- Lines 137-174 of `Hub.run`: store the file when it has content and replace
`message.File` by a record without content that carries the file identifier.
Nothing happens unless the message has a file and a non-empty `ID`. -/
def storeFile (fs : FileStore) (message : Message) : FileStore × Message :=
  match message.File with
  | none => (fs, message)
  | some file =>
    if message.ID ≠ "" then
      let fileID := if file.ID = "" then message.ID else file.ID
      let fs1 :=
        if file.Content ≠ "" then
          fs.set fileID
            { ID := "", Name := file.Name, Size := file.Size, Type_ := file.Type_,
              Content := file.Content }
        else fs
      let fileData : FileData :=
        { ID := fileID, Name := file.Name, Size := file.Size, Type_ := file.Type_, Content := "" }
      (fs1, { message with File := some fileData })
    else (fs, message)

/-- Lines 176-185 of `Hub.run`: the `range` over the clients. The first
argument lists the keys the map had when the loop started, in iteration
order; a key deleted before the iteration reaches it is not produced. A
connection whose write fails is deleted from the map and closed. -/
def fanOut (writeErr : Conn → Message → Bool) (message : Message) :
    List Conn → Registry → Registry × List Effect
  | [], clients => (clients, [])
  | conn :: rest, clients =>
    if conn ∈ clients then
      if writeErr conn message then
        let r := fanOut writeErr message rest (clients.erase conn)
        (r.1, Effect.writeJSON conn message true :: Effect.close conn :: r.2)
      else
        let r := fanOut writeErr message rest clients
        (r.1, Effect.writeJSON conn message false :: r.2)
    else fanOut writeErr message rest clients

/-- One iteration of the loop of `Hub.run` (lines 112-187) on the event
received, giving the next hub and the calls made on connections. -/
def Hub.run (writeErr : Conn → Message → Bool) (h : Hub) : Event → Hub × List Effect
  | Event.register ci =>
    ({ h with clients := h.clients.insert ci.conn ci.ip }, [])
  | Event.unregister conn =>
    let ip := h.clientIP conn
    if ip ≠ "" then ({ h with clients := h.clients.erase conn }, [Effect.close conn])
    else (h, [])
  | Event.broadcast bm =>
    let message : Message := { bm.msg with SenderIP := h.clientIP bm.sender }
    let stored := storeFile h.fileStore message
    let sent := fanOut writeErr stored.2 h.clients.keys h.clients
    ({ clients := sent.1, fileStore := stored.1 }, sent.2)

/-- The loop of `Hub.run` on a finite sequence of events. -/
def Hub.runAll (writeErr : Conn → Message → Bool) (h : Hub) : List Event → Hub × List Effect
  | [] => (h, [])
  | e :: rest =>
    let r := Hub.run writeErr h e
    let s := Hub.runAll writeErr r.1 rest
    (s.1, r.2 ++ s.2)

/-- The calls of `WriteJSON` made, in order: the connection and the message. -/
def writes : List Effect → List (Conn × Message)
  | [] => []
  | Effect.writeJSON conn message _ :: rest => (conn, message) :: writes rest
  | Effect.close _ :: rest => writes rest

/-- The message the broadcast case hands to the fan-out for a request. -/
def outgoing (h : Hub) (bm : broadcastMsg) : Message :=
  (storeFile h.fileStore { bm.msg with SenderIP := h.clientIP bm.sender }).2

/-- The body of the read loop of `Hub.handleWebSocket` (lines 214-219) on one
decoded message, with `nanos` the value of `time.Now().UnixNano()`: a message
without text and without file is dropped, an empty `ID` is replaced by the
decimal form of `nanos`, and the message goes to the broadcast channel with
the connection as sender. -/
def handleWebSocket (nanos : Int) (conn : Conn) (msg : Message) : Option broadcastMsg :=
  if msg.Text ≠ "" ∨ msg.File ≠ none then
    some { msg := if msg.ID = "" then { msg with ID := Int.repr nanos } else msg
           sender := conn }
  else none

/-- Every address of the registry is non-empty, as are the addresses that
`Hub.handleWebSocket` registers (lines 197-198). -/
def addressed (clients : Registry) : Prop :=
  ∀ e ∈ clients.entries, e.2 ≠ ""

instance addressedDecidable (clients : Registry) : Decidable (addressed clients) :=
  inferInstanceAs (Decidable (∀ e ∈ clients.entries, e.2 ≠ ""))

/-- The events that `Hub.handleWebSocket` sends: a register event with a
non-empty address (lines 197-198), an unregister event (lines 200-202), a
broadcast event whose message has text or a file and a non-empty `ID`
(lines 214-218). -/
def Event.fromSession : Event → Prop
  | Event.register ci => ci.ip ≠ ""
  | Event.unregister _ => True
  | Event.broadcast bm => (bm.msg.Text ≠ "" ∨ bm.msg.File ≠ none) ∧ bm.msg.ID ≠ ""

/-- A registry of two clients. -/
def twoClients : Registry :=
  ((∅ : Registry).insert 1 "10.0.0.1").insert 2 "10.0.0.2"

/-- A hub with two clients and an empty store. -/
def twoClientHub : Hub :=
  { clients := twoClients, fileStore := newFileStore }

/-- Writes that always succeed. -/
def noWriteErr : Conn → Message → Bool :=
  fun _ _ => false

/-- A store holding one file with content under `f1`. -/
def storeWithFile : FileStore :=
  newFileStore.set "f1"
    { ID := "", Name := "a.txt", Size := 5, Type_ := "text/plain", Content := "WA==" }

/-! ## The file store -/

theorem FileStore.get_assign_same (fs : FileStore) (id : String) (file : FileData) :
    (fs.assign id file).get id = some file := by
  simp [FileStore.get, FileStore.assign]

theorem FileStore.get_assign_ne (fs : FileStore) (id k : String) (file : FileData)
    (h : k ≠ id) : (fs.assign id file).get k = fs.get k := by
  simp [FileStore.get, FileStore.assign, h]

theorem FileStore.get_set_ne (fs : FileStore) (id k : String) (file : FileData)
    (h : k ≠ id) : (fs.set id file).get k = fs.get k := by
  unfold FileStore.set
  split
  · exact FileStore.get_assign_ne fs id k file h
  · split <;> exact FileStore.get_assign_ne fs id k _ h

theorem FileStore.get_set_new (fs : FileStore) (id : String) (file : FileData)
    (h : fs.get id = none) : (fs.set id file).get id = some file := by
  unfold FileStore.get at h
  unfold FileStore.set
  rw [h]
  exact FileStore.get_assign_same fs id file

theorem FileStore.get_set_content (fs : FileStore) (id : String) (file : FileData)
    (h : file.Content ≠ "") : (fs.set id file).get id = some file := by
  unfold FileStore.set
  split
  · exact FileStore.get_assign_same fs id file
  · rw [if_pos h]
    exact FileStore.get_assign_same fs id file

theorem FileStore.get_set_merge (fs : FileStore) (id : String) (file existing : FileData)
    (hget : fs.get id = some existing) (h : file.Content = "") :
    (fs.set id file).get id = some
      { ID := existing.ID
        Name := if file.Name ≠ "" then file.Name else existing.Name
        Size := if file.Size > 0 then file.Size else existing.Size
        Type_ := if file.Type_ ≠ "" then file.Type_ else existing.Type_
        Content := existing.Content } := by
  unfold FileStore.get at hget
  unfold FileStore.set
  rw [hget]
  simp only [h, ne_eq, not_true_eq_false, if_false]
  rw [FileStore.get_assign_same]
  by_cases h1 : file.Name = "" <;> by_cases h2 : file.Size > 0 <;>
    by_cases h3 : file.Type_ = "" <;> simp [h1, h2, h3]

theorem FileStore.content_kept_by_set (fs : FileStore) (id k : String) (file existing : FileData)
    (hget : fs.get k = some existing) (hne : existing.Content ≠ "") :
    ∃ after, (fs.set id file).get k = some after ∧ after.Content ≠ "" := by
  by_cases hk : k = id
  · subst hk
    by_cases hc : file.Content = ""
    · exact ⟨_, FileStore.get_set_merge fs k file existing hget hc, hne⟩
    · exact ⟨file, FileStore.get_set_content fs k file hc, hc⟩
  · exact ⟨existing, by rw [FileStore.get_set_ne fs id k file hk, hget], hne⟩

theorem FileStore.content_kept_by_setAll (ops : List (String × FileData)) :
    ∀ (fs : FileStore) (k : String) (existing : FileData),
      fs.get k = some existing → existing.Content ≠ "" →
      ∃ after, (fs.setAll ops).get k = some after ∧ after.Content ≠ "" := by
  induction ops with
  | nil =>
    intro fs k existing hget hne
    exact ⟨existing, hget, hne⟩
  | cons op rest ih =>
    intro fs k existing hget hne
    obtain ⟨id, file⟩ := op
    obtain ⟨mid, hmid, hmidne⟩ := FileStore.content_kept_by_set fs id k file existing hget hne
    exact ih (fs.set id file) k mid hmid hmidne

/-- C1: when the store holds under `id` a record with non-empty content, after
`set id r` the record under `id` still has non-empty content, and it has
exactly the old content when `r` has none; and after any further sequence of
`set` calls `get id` still finds a record with non-empty content. -/
theorem content_never_emptied (fs : FileStore) (id : String) (r existing : FileData)
    (hget : fs.get id = some existing) (hne : existing.Content ≠ "") :
    (∃ after, (fs.set id r).get id = some after ∧ after.Content ≠ "" ∧
        (r.Content = "" → after.Content = existing.Content)) ∧
    (∀ ops : List (String × FileData),
        ∃ later, (fs.setAll ops).get id = some later ∧ later.Content ≠ "") := by
  refine ⟨?_, fun ops => FileStore.content_kept_by_setAll ops fs id existing hget hne⟩
  by_cases hc : r.Content = ""
  · exact ⟨_, FileStore.get_set_merge fs id r existing hget hc, hne, fun _ => rfl⟩
  · exact ⟨r, FileStore.get_set_content fs id r hc, hc, fun h => absurd h hc⟩

theorem content_never_emptied_witness :
    (∃ after, (storeWithFile.set "f1" ⟨"", "b.txt", 0, "", ""⟩).get "f1" = some after ∧
        after.Content ≠ "" ∧ ("" = "" → after.Content = "WA==")) ∧
    (∀ ops : List (String × FileData),
        ∃ later, (storeWithFile.setAll ops).get "f1" = some later ∧ later.Content ≠ "") :=
  content_never_emptied storeWithFile "f1" ⟨"", "b.txt", 0, "", ""⟩
    ⟨"", "a.txt", 5, "text/plain", "WA=="⟩ (by decide) (by decide)

/-- C3, as amended: when the store holds a record under `id` and the incoming
record `r` has empty content, `set id r` blanks no metadata field (a name or
type that was non-empty stays non-empty, a size that was non-zero stays
non-zero) and a stored field changes only when the incoming value is non-empty
or non-zero. -/
theorem set_without_content_keeps_metadata (fs : FileStore) (id : String)
    (r existing : FileData) (hget : fs.get id = some existing) (hr : r.Content = "") :
    ∃ after, (fs.set id r).get id = some after ∧
      (existing.Name ≠ "" → after.Name ≠ "") ∧
      (existing.Type_ ≠ "" → after.Type_ ≠ "") ∧
      (existing.Size ≠ 0 → after.Size ≠ 0) ∧
      (after.Name ≠ existing.Name → r.Name ≠ "") ∧
      (after.Type_ ≠ existing.Type_ → r.Type_ ≠ "") ∧
      (after.Size ≠ existing.Size → r.Size ≠ 0) := by
  refine ⟨_, FileStore.get_set_merge fs id r existing hget hr, ?_, ?_, ?_, ?_, ?_, ?_⟩
  · intro h
    by_cases h1 : r.Name = "" <;> simp [h1, h]
  · intro h
    by_cases h1 : r.Type_ = "" <;> simp [h1, h]
  · intro h
    by_cases h1 : r.Size > 0
    · simp only [h1, if_true]
      omega
    · simp [h1, h]
  · intro h h1
    simp [h1] at h
  · intro h h1
    simp [h1] at h
  · intro h h1
    simp [h1] at h

theorem set_without_content_keeps_metadata_witness :
    ∃ after, (storeWithFile.set "f1" ⟨"", "", 7, "image/png", ""⟩).get "f1" = some after ∧
      ("a.txt" ≠ "" → after.Name ≠ "") ∧
      ("text/plain" ≠ "" → after.Type_ ≠ "") ∧
      ((5 : Int) ≠ 0 → after.Size ≠ 0) ∧
      (after.Name ≠ "a.txt" → "" ≠ "") ∧
      (after.Type_ ≠ "text/plain" → "image/png" ≠ "") ∧
      (after.Size ≠ 5 → (7 : Int) ≠ 0) :=
  set_without_content_keeps_metadata storeWithFile "f1" ⟨"", "", 7, "image/png", ""⟩
    ⟨"", "a.txt", 5, "text/plain", "WA=="⟩ (by decide) (by decide)

/-- C3 as stated fails: the store holds under `f1` a record with name `a.txt`,
size 5 and type `text/plain`; a `set` with a record that has content but an
empty name, size zero and an empty type leaves all three blank. -/
theorem set_with_content_blanks_metadata :
    storeWithFile.get "f1" = some ⟨"", "a.txt", 5, "text/plain", "WA=="⟩ ∧
    (storeWithFile.set "f1" ⟨"", "", 0, "", "WQ=="⟩).get "f1" =
      some ⟨"", "", 0, "", "WQ=="⟩ := by
  decide

/-- C7: when the store holds under `id` a record with name `a`, size `s`, type
`t` and content `X`, and `r` has empty content, after `set id r` the record
under `id` has content `X`, the name of `r` if that is non-empty and `a`
otherwise, the size of `r` if that is positive and `s` otherwise, and the type
of `r` if that is non-empty and `t` otherwise. -/
theorem set_metadata_only (fs : FileStore) (id : String) (r existing : FileData)
    (hget : fs.get id = some existing) (hr : r.Content = "") :
    ∃ after, (fs.set id r).get id = some after ∧
      after.Content = existing.Content ∧
      after.Name = (if r.Name ≠ "" then r.Name else existing.Name) ∧
      after.Size = (if r.Size > 0 then r.Size else existing.Size) ∧
      after.Type_ = (if r.Type_ ≠ "" then r.Type_ else existing.Type_) :=
  ⟨_, FileStore.get_set_merge fs id r existing hget hr, rfl, rfl, rfl, rfl⟩

theorem set_metadata_only_witness :
    ∃ after, (storeWithFile.set "f1" ⟨"", "b.txt", 0, "", ""⟩).get "f1" = some after ∧
      after.Content = "WA==" ∧ after.Name = "b.txt" ∧ after.Size = 5 ∧
      after.Type_ = "text/plain" :=
  set_metadata_only storeWithFile "f1" ⟨"", "b.txt", 0, "", ""⟩
    ⟨"", "a.txt", 5, "text/plain", "WA=="⟩ (by decide) (by decide)

theorem FileStore.ext_get (a b : FileStore) (h : ∀ k, a.get k = b.get k) : a = b := by
  cases a
  cases b
  simp only [FileStore.get] at h
  simp only [FileStore.mk.injEq]
  exact funext h

/-- C8: `set` is idempotent: `set id r` applied twice gives the same store as
applied once, so `get` returns the same result for every identifier. -/
theorem set_idempotent (fs : FileStore) (id : String) (r : FileData) :
    (fs.set id r).set id r = fs.set id r ∧
    ∀ k, ((fs.set id r).set id r).get k = (fs.set id r).get k := by
  have key : ∀ k, ((fs.set id r).set id r).get k = (fs.set id r).get k := by
    intro k
    by_cases hk : k = id
    · subst hk
      by_cases hc : r.Content = ""
      · cases hget : fs.get k with
        | none =>
          have h1 := FileStore.get_set_new fs k r hget
          rw [FileStore.get_set_merge (fs.set k r) k r r h1 hc, h1]
          simp
        | some existing =>
          have h1 := FileStore.get_set_merge fs k r existing hget hc
          rw [FileStore.get_set_merge (fs.set k r) k r _ h1 hc, h1]
          by_cases h2 : r.Name = "" <;> by_cases h3 : r.Size > 0 <;>
            by_cases h4 : r.Type_ = "" <;> simp [h2, h3, h4]
      · rw [FileStore.get_set_content (fs.set k r) k r hc, FileStore.get_set_content fs k r hc]
    · rw [FileStore.get_set_ne (fs.set id r) id k r hk]
  exact ⟨FileStore.ext_get _ _ key, key⟩

/-! ## The fan-out -/

theorem fanOut_writes (writeErr : Conn → Message → Bool) (message : Message)
    (conns : List Conn) :
    ∀ clients : Registry, conns.Nodup → (∀ c ∈ conns, c ∈ clients) →
      writes (fanOut writeErr message conns clients).2 = conns.map (fun c => (c, message)) := by
  induction conns with
  | nil => intro clients _ _; rfl
  | cons conn rest ih =>
    intro clients hnodup hmem
    have hconn : conn ∈ clients := hmem conn (List.mem_cons_self conn rest)
    have hrest : rest.Nodup := (List.nodup_cons.mp hnodup).2
    have hnot : conn ∉ rest := (List.nodup_cons.mp hnodup).1
    unfold fanOut
    rw [if_pos hconn]
    by_cases hw : writeErr conn message = true
    · rw [if_pos hw]
      have hmem2 : ∀ c ∈ rest, c ∈ clients.erase conn := by
        intro c hc
        refine AList.mem_erase.mpr ⟨?_, hmem c (List.mem_cons_of_mem conn hc)⟩
        intro heq
        exact hnot (heq ▸ hc)
      simp only [writes, List.map_cons, ih (clients.erase conn) hrest hmem2]
    · rw [if_neg hw]
      have hmem2 : ∀ c ∈ rest, c ∈ clients := fun c hc =>
        hmem c (List.mem_cons_of_mem conn hc)
      simp only [writes, List.map_cons, ih clients hrest hmem2]

theorem fanOut_keys_writes (writeErr : Conn → Message → Bool) (message : Message)
    (clients : Registry) :
    writes (fanOut writeErr message clients.keys clients).2 =
      clients.keys.map (fun c => (c, message)) :=
  fanOut_writes writeErr message clients.keys clients clients.keys_nodup
    (fun _ hc => AList.mem_keys.mpr hc)

theorem fanOut_lookup (writeErr : Conn → Message → Bool) (message : Message)
    (conns : List Conn) :
    ∀ (clients : Registry) (c : Conn),
      (fanOut writeErr message conns clients).1.lookup c =
        if c ∈ conns ∧ writeErr c message = true then none else clients.lookup c := by
  induction conns with
  | nil => intro clients c; simp [fanOut]
  | cons conn rest ih =>
    intro clients c
    unfold fanOut
    by_cases hconn : conn ∈ clients
    · rw [if_pos hconn]
      by_cases hw : writeErr conn message = true
      · rw [if_pos hw]
        show (fanOut writeErr message rest (clients.erase conn)).1.lookup c = _
        rw [ih]
        by_cases hc : c = conn
        · subst hc
          simp [hw, AList.lookup_erase]
        · simp [hc, AList.lookup_erase_ne hc]
      · rw [if_neg hw]
        show (fanOut writeErr message rest clients).1.lookup c = _
        rw [ih]
        by_cases hc : c = conn
        · subst hc
          simp [hw]
        · simp [hc]
    · rw [if_neg hconn, ih]
      by_cases hc : c = conn
      · subst hc
        have hnone : clients.lookup c = none := AList.lookup_eq_none.mpr hconn
        simp [hnone]
      · simp [hc]

theorem fanOut_keys_lookup (writeErr : Conn → Message → Bool) (message : Message)
    (clients : Registry) (c : Conn) :
    (fanOut writeErr message clients.keys clients).1.lookup c =
      if writeErr c message = true then none else clients.lookup c := by
  rw [fanOut_lookup]
  by_cases hw : writeErr c message = true
  · by_cases hc : c ∈ clients.keys
    · simp [hw, hc]
    · have hnone : clients.lookup c = none := AList.lookup_eq_none.mpr hc
      simp [hw, hc, hnone]
  · simp [hw]

/-- C6: in the broadcast case a write of the outgoing message is attempted on
every handle of the registry exactly once, in iteration order and whatever
writes fail, and afterwards the registry holds exactly the entries of before
whose write did not fail. -/
theorem fanOut_reaches_all_and_drops_failed (writeErr : Conn → Message → Bool) (h : Hub)
    (bm : broadcastMsg) :
    writes (Hub.run writeErr h (Event.broadcast bm)).2 =
      h.clients.keys.map (fun c => (c, outgoing h bm)) ∧
    ∀ c : Conn, (Hub.run writeErr h (Event.broadcast bm)).1.clients.lookup c =
      if writeErr c (outgoing h bm) = true then none else h.clients.lookup c := by
  constructor
  · exact fanOut_keys_writes writeErr (outgoing h bm) h.clients
  · intro c
    exact fanOut_keys_lookup writeErr (outgoing h bm) h.clients c

/-! ## The hub loop -/

theorem run_broadcast_writes (writeErr : Conn → Message → Bool) (h : Hub) (bm : broadcastMsg) :
    writes (Hub.run writeErr h (Event.broadcast bm)).2 =
      h.clients.keys.map (fun c => (c, outgoing h bm)) :=
  fanOut_keys_writes writeErr (outgoing h bm) h.clients

theorem run_broadcast_fileStore (writeErr : Conn → Message → Bool) (h : Hub)
    (bm : broadcastMsg) :
    (Hub.run writeErr h (Event.broadcast bm)).1.fileStore =
      (storeFile h.fileStore { bm.msg with SenderIP := h.clientIP bm.sender }).1 :=
  rfl

theorem storeFile_senderIP (fs : FileStore) (message : Message) :
    (storeFile fs message).2.SenderIP = message.SenderIP := by
  unfold storeFile
  split
  · rfl
  · split <;> rfl

theorem storeFile_with_id (fs : FileStore) (message : Message) (file : FileData)
    (hfile : message.File = some file) (hid : message.ID ≠ "") :
    (storeFile fs message).2.File = some
      { ID := if file.ID ≠ "" then file.ID else message.ID
        Name := file.Name, Size := file.Size, Type_ := file.Type_, Content := "" } := by
  unfold storeFile
  rw [hfile]
  simp only [hid, ne_eq, not_false_eq_true, if_true]
  by_cases h1 : file.ID = "" <;> simp [h1]

theorem storeFile_without_content (fs : FileStore) (message : Message) (file : FileData)
    (hfile : message.File = some file) (hc : file.Content = "") :
    (storeFile fs message).1 = fs := by
  unfold storeFile
  rw [hfile]
  by_cases hid : message.ID = "" <;> simp [hid, hc]

theorem storeFile_with_content (fs : FileStore) (message : Message) (file : FileData)
    (hfile : message.File = some file) (hid : message.ID ≠ "") (hc : file.Content ≠ "") :
    (storeFile fs message).1 =
      fs.set (if file.ID ≠ "" then file.ID else message.ID)
        { ID := "", Name := file.Name, Size := file.Size, Type_ := file.Type_,
          Content := file.Content } := by
  unfold storeFile
  rw [hfile]
  simp only [hid, hc, ne_eq, not_false_eq_true, if_true]
  by_cases h1 : file.ID = "" <;> simp [h1]

theorem toDigitsCore_ne_nil (b fuel : Nat) :
    ∀ (n : Nat) (ds : List Char), ds ≠ [] → Nat.toDigitsCore b fuel n ds ≠ [] := by
  induction fuel with
  | zero =>
    intro n ds hds
    simpa [Nat.toDigitsCore] using hds
  | succ fuel ih =>
    intro n ds _
    unfold Nat.toDigitsCore
    simp only []
    split
    · exact List.cons_ne_nil _ _
    · exact ih _ _ (List.cons_ne_nil _ _)

theorem toDigits_ne_nil (b n : Nat) : Nat.toDigits b n ≠ [] := by
  unfold Nat.toDigits Nat.toDigitsCore
  simp only []
  split
  · exact List.cons_ne_nil _ _
  · exact toDigitsCore_ne_nil b n _ _ (List.cons_ne_nil _ _)

theorem intRepr_ne_empty (n : Int) : Int.repr n ≠ "" := by
  cases n with
  | ofNat m =>
    intro hrepr
    have hdata := congrArg String.data hrepr
    exact toDigits_ne_nil 10 m hdata
  | negSucc m =>
    intro hrepr
    have hdata := congrArg String.data hrepr
    simp [Int.repr] at hdata

theorem handleWebSocket_sent (nanos : Int) (conn : Conn) (msg : Message) (bm : broadcastMsg)
    (hsent : handleWebSocket nanos conn msg = some bm) :
    bm.msg.ID ≠ "" ∧ bm.msg.Text = msg.Text ∧ bm.msg.File = msg.File ∧ bm.sender = conn := by
  unfold handleWebSocket at hsent
  split at hsent
  · have hbm := (Option.some.inj hsent).symm
    subst hbm
    by_cases hid : msg.ID = ""
    · simp [hid, intRepr_ne_empty]
    · simp [hid]
  · exact absurd hsent (by simp)

theorem handleWebSocket_fromSession (nanos : Int) (conn : Conn) (msg : Message)
    (bm : broadcastMsg) (hsent : handleWebSocket nanos conn msg = some bm) :
    (Event.broadcast bm).fromSession := by
  obtain ⟨hid, htext, hfile, _⟩ := handleWebSocket_sent nanos conn msg bm hsent
  unfold handleWebSocket at hsent
  split at hsent
  · rename_i hkeep
    show (bm.msg.Text ≠ "" ∨ bm.msg.File ≠ none) ∧ bm.msg.ID ≠ ""
    rw [htext, hfile]
    exact ⟨hkeep, hid⟩
  · exact absurd hsent (by simp)

theorem outgoing_file_stripped (h : Hub) (bm : broadcastMsg)
    (hreq : bm.msg.ID ≠ "" ∨ ∀ f, bm.msg.File = some f → f.Content = "") :
    (outgoing h bm).File = none ∨ ∃ f, (outgoing h bm).File = some f ∧ f.Content = "" := by
  cases hfile : bm.msg.File with
  | none =>
    left
    simp [outgoing, storeFile, hfile]
  | some file =>
    right
    by_cases hid : bm.msg.ID = ""
    · have hc : file.Content = "" := by
        rcases hreq with hne | hall
        · exact absurd hid hne
        · exact hall file hfile
      exact ⟨file, by simp [outgoing, storeFile, hfile, hid], hc⟩
    · exact ⟨_, storeFile_with_id h.fileStore
        { bm.msg with SenderIP := h.clientIP bm.sender } file hfile hid, rfl⟩

/-- C2: for every hub state and every message a session decodes, with any
`ID` (empty or not), text and file, the request that the session sends carries
the file of the decoded message, and when the hub handles it every client of
the registry is written one and the same message, which has no file or a file
with empty content, whatever content the submitted file carried. -/
theorem broadcast_strips_content (writeErr : Conn → Message → Bool) (h : Hub)
    (nanos : Int) (conn : Conn) (msg : Message) (bm : broadcastMsg)
    (hsent : handleWebSocket nanos conn msg = some bm) :
    bm.msg.File = msg.File ∧
    writes (Hub.run writeErr h (Event.broadcast bm)).2 =
      h.clients.keys.map (fun c => (c, outgoing h bm)) ∧
    ((outgoing h bm).File = none ∨
      ∃ f, (outgoing h bm).File = some f ∧ f.Content = "") :=
  ⟨(handleWebSocket_sent nanos conn msg bm hsent).2.2.1, run_broadcast_writes writeErr h bm,
    outgoing_file_stripped h bm (Or.inl (handleWebSocket_sent nanos conn msg bm hsent).1)⟩

theorem broadcast_strips_content_witness :
    (some ⟨"", "pic.png", 10, "image/png", "QUJD"⟩ : Option FileData) =
      some ⟨"", "pic.png", 10, "image/png", "QUJD"⟩ ∧
    writes (Hub.run noWriteErr twoClientHub (Event.broadcast
        ⟨⟨"1700000000000000000", "", "",
          some ⟨"", "pic.png", 10, "image/png", "QUJD"⟩⟩, 1⟩)).2 =
      [(2, ⟨"1700000000000000000", "", "10.0.0.1",
          some ⟨"1700000000000000000", "pic.png", 10, "image/png", ""⟩⟩),
       (1, ⟨"1700000000000000000", "", "10.0.0.1",
          some ⟨"1700000000000000000", "pic.png", 10, "image/png", ""⟩⟩)] ∧
    ((outgoing twoClientHub ⟨⟨"1700000000000000000", "", "",
          some ⟨"", "pic.png", 10, "image/png", "QUJD"⟩⟩, 1⟩).File = none ∨
      ∃ f, (outgoing twoClientHub ⟨⟨"1700000000000000000", "", "",
          some ⟨"", "pic.png", 10, "image/png", "QUJD"⟩⟩, 1⟩).File = some f ∧
        f.Content = "") :=
  broadcast_strips_content noWriteErr twoClientHub 1700000000000000000 1
    ⟨"", "", "", some ⟨"", "pic.png", 10, "image/png", "QUJD"⟩⟩
    ⟨⟨"1700000000000000000", "", "", some ⟨"", "pic.png", 10, "image/png", "QUJD"⟩⟩, 1⟩
    (by decide)

/-- Outside what a session sends: the hub leaves the file of a request with an
empty `ID` as it is, content included. -/
theorem broadcast_without_id_keeps_content :
    writes (Hub.run noWriteErr twoClientHub (Event.broadcast
        ⟨⟨"", "", "", some ⟨"", "pic.png", 10, "image/png", "QUJD"⟩⟩, 1⟩)).2 =
      [(2, ⟨"", "", "10.0.0.1", some ⟨"", "pic.png", 10, "image/png", "QUJD"⟩⟩),
       (1, ⟨"", "", "10.0.0.1", some ⟨"", "pic.png", 10, "image/png", "QUJD"⟩⟩)] := by
  decide

/-! ### Register and unregister -/

theorem newHub_addressed (fileStore : FileStore) : addressed (newHub fileStore).clients := by
  intro e he
  exact absurd he (List.not_mem_nil e)

/-- Outside what a session registers: a handle put in the registry under the
empty address is still there, and not closed, after its unregister event. -/
theorem unregister_keeps_handle_with_empty_address :
    (Hub.runAll noWriteErr (newHub newFileStore)
        [Event.register ⟨7, ""⟩, Event.unregister 7]).1.clients.lookup 7 = some "" ∧
    (Hub.runAll noWriteErr (newHub newFileStore)
        [Event.register ⟨7, ""⟩, Event.unregister 7]).2 = [] := by
  decide

/-- C5: for a broadcast request whose message has a non-empty `ID` and a file
with non-empty content, the store afterwards holds under the resolved
identifier (the file `ID` if non-empty, the message `ID` otherwise) a record
with the name, size, type and content of the file, and the message written to
every client has a file carrying the resolved identifier and the same name,
size and type. -/
theorem broadcast_stores_and_announces (writeErr : Conn → Message → Bool) (h : Hub)
    (bm : broadcastMsg) (file : FileData) (hid : bm.msg.ID ≠ "")
    (hfile : bm.msg.File = some file) (hc : file.Content ≠ "") :
    (Hub.run writeErr h (Event.broadcast bm)).1.fileStore.get
        (if file.ID ≠ "" then file.ID else bm.msg.ID) =
      some { ID := "", Name := file.Name, Size := file.Size, Type_ := file.Type_,
             Content := file.Content } ∧
    writes (Hub.run writeErr h (Event.broadcast bm)).2 =
      h.clients.keys.map (fun c => (c, outgoing h bm)) ∧
    (outgoing h bm).File =
      some { ID := if file.ID ≠ "" then file.ID else bm.msg.ID
             Name := file.Name, Size := file.Size, Type_ := file.Type_, Content := "" } := by
  refine ⟨?_, run_broadcast_writes writeErr h bm, ?_⟩
  · rw [run_broadcast_fileStore,
      storeFile_with_content h.fileStore { bm.msg with SenderIP := h.clientIP bm.sender }
        file hfile hid hc]
    exact FileStore.get_set_content _ _ _ hc
  · exact storeFile_with_id h.fileStore { bm.msg with SenderIP := h.clientIP bm.sender }
      file hfile hid

theorem broadcast_stores_and_announces_witness :
    (Hub.run noWriteErr twoClientHub (Event.broadcast
        ⟨⟨"m1", "", "", some ⟨"", "pic.png", 10, "", "QUJDREVGR0hJSg=="⟩⟩, 1⟩)).1.fileStore.get
        "m1" =
      some { ID := "", Name := "pic.png", Size := 10, Type_ := "",
             Content := "QUJDREVGR0hJSg==" } ∧
    writes (Hub.run noWriteErr twoClientHub (Event.broadcast
        ⟨⟨"m1", "", "", some ⟨"", "pic.png", 10, "", "QUJDREVGR0hJSg=="⟩⟩, 1⟩)).2 =
      [(2, ⟨"m1", "", "10.0.0.1", some ⟨"m1", "pic.png", 10, "", ""⟩⟩),
       (1, ⟨"m1", "", "10.0.0.1", some ⟨"m1", "pic.png", 10, "", ""⟩⟩)] ∧
    (outgoing twoClientHub
        ⟨⟨"m1", "", "", some ⟨"", "pic.png", 10, "", "QUJDREVGR0hJSg=="⟩⟩, 1⟩).File =
      some { ID := "m1", Name := "pic.png", Size := 10, Type_ := "", Content := "" } :=
  broadcast_stores_and_announces noWriteErr twoClientHub
    ⟨⟨"m1", "", "", some ⟨"", "pic.png", 10, "", "QUJDREVGR0hJSg=="⟩⟩, 1⟩
    ⟨"", "pic.png", 10, "", "QUJDREVGR0hJSg=="⟩ (by decide) rfl (by decide)

/-- C9: for a broadcast request whose message carries a file with empty
content the store is left as it was, so `get` returns the same result for
every identifier, known to the store or not, and the message is still written
to every client of the registry. -/
theorem broadcast_without_content_keeps_store (writeErr : Conn → Message → Bool) (h : Hub)
    (bm : broadcastMsg) (file : FileData) (hfile : bm.msg.File = some file)
    (hc : file.Content = "") :
    (Hub.run writeErr h (Event.broadcast bm)).1.fileStore = h.fileStore ∧
    (∀ k, (Hub.run writeErr h (Event.broadcast bm)).1.fileStore.get k = h.fileStore.get k) ∧
    writes (Hub.run writeErr h (Event.broadcast bm)).2 =
      h.clients.keys.map (fun c => (c, outgoing h bm)) := by
  have hstore : (Hub.run writeErr h (Event.broadcast bm)).1.fileStore = h.fileStore := by
    rw [run_broadcast_fileStore]
    exact storeFile_without_content h.fileStore
      { bm.msg with SenderIP := h.clientIP bm.sender } file hfile hc
  exact ⟨hstore, fun k => by rw [hstore], run_broadcast_writes writeErr h bm⟩

theorem broadcast_without_content_keeps_store_witness :
    (Hub.run noWriteErr twoClientHub (Event.broadcast
        ⟨⟨"m2", "", "", some ⟨"m1", "pic.png", 10, "", ""⟩⟩, 2⟩)).1.fileStore =
      twoClientHub.fileStore ∧
    (∀ k, (Hub.run noWriteErr twoClientHub (Event.broadcast
        ⟨⟨"m2", "", "", some ⟨"m1", "pic.png", 10, "", ""⟩⟩, 2⟩)).1.fileStore.get k =
      twoClientHub.fileStore.get k) ∧
    writes (Hub.run noWriteErr twoClientHub (Event.broadcast
        ⟨⟨"m2", "", "", some ⟨"m1", "pic.png", 10, "", ""⟩⟩, 2⟩)).2 =
      [(2, ⟨"m2", "", "10.0.0.2", some ⟨"m1", "pic.png", 10, "", ""⟩⟩),
       (1, ⟨"m2", "", "10.0.0.2", some ⟨"m1", "pic.png", 10, "", ""⟩⟩)] :=
  broadcast_without_content_keeps_store noWriteErr twoClientHub
    ⟨⟨"m2", "", "", some ⟨"m1", "pic.png", 10, "", ""⟩⟩, 2⟩
    ⟨"m1", "pic.png", 10, "", ""⟩ rfl rfl

/-- C10: the `SenderIP` of the message written to the clients is the address
registered for the sender, or the empty string when the sender is not in the
registry; and replacing the `SenderIP` of the submitted message by any other
value changes nothing in what the hub does. -/
theorem sender_address_from_registry (writeErr : Conn → Message → Bool) (h : Hub)
    (bm : broadcastMsg) :
    (outgoing h bm).SenderIP =
      (match h.clients.lookup bm.sender with
        | some ip => ip
        | none => "") ∧
    writes (Hub.run writeErr h (Event.broadcast bm)).2 =
      h.clients.keys.map (fun c => (c, outgoing h bm)) ∧
    ∀ addr : String,
      Hub.run writeErr h
          (Event.broadcast { msg := { bm.msg with SenderIP := addr }, sender := bm.sender }) =
        Hub.run writeErr h (Event.broadcast bm) := by
  refine ⟨?_, run_broadcast_writes writeErr h bm, fun addr => rfl⟩
  unfold outgoing
  rw [storeFile_senderIP]
  show h.clientIP bm.sender = _
  unfold Hub.clientIP
  cases h.clients.lookup bm.sender <;> rfl

end LocalClipboard
